import Mathlib

/-!
Verification of the pdf-helper page-merge core.

This file shallowly embeds the page/document model and the operations of
`src/types.ts`, `src/services/pdfService.ts` and the application component
(`src/unnamed/part_000`): loading previews (`loadPdfAndGetPreviews`),
per-batch upload handling (`handleFileUpload`), page reordering
(`movePage`), page deletion (`removePage`), export validation
(`handleDownload`) and the merge compiler (`mergeAndDownloadPdf`).

External capabilities (pdf.js decoding, canvas 2d contexts, rasterising,
JPEG encoding, pdf-lib decoding/serialisation, the random id source) are
passed in as an explicit environment `Env`, so every definition is a pure,
executable function of its inputs and that environment.

JavaScript array semantics matter for `movePage`, whose bounds check only
guards the *target* index: reading an out-of-range index yields
`undefined`, and writing at index = length appends.  Arrays are therefore
modelled as `List (Option _)` with `none` playing the role of `undefined`;
`jsRead`/`jsWrite` transcribe the JS indexing rules that the code can
actually reach.
-/

/-- Structure `PDFPage` from `src/types.ts`: one entry of the user-built page list. -/
structure PDFPage where
  id : String
  sourceFileId : String
  pageIndex : Nat
  previewUrl : String
  originalFileName : String
deriving DecidableEq

/-- A browser `File` object, as far as the code consumes it: `name`,
`size`, `type` (field renamed `ftype`, `type` being a keyword) and the
bytes produced by `file.arrayBuffer()`. -/
structure JSFile where
  name : String
  size : Nat
  ftype : String
  data : List Nat
deriving DecidableEq

/-- Structure `PDFFile` from `src/types.ts`: a registered source document. -/
structure PDFFile where
  id : String
  name : String
  file : JSFile
  pageCount : Nat
deriving DecidableEq

/-- The two state arrays held by the `App` component. -/
structure AppState where
  files : List PDFFile
  allPages : List PDFPage
deriving DecidableEq

/-- Error taxonomy: failures of the external pdf capabilities plus the
`"Source file missing"` throw of `handleDownload` and the spec's
`IndexOutOfRange`. -/
inductive PdfError where
  | decodeError
  | renderError
  | copyError
  | serializeError
  | missingSource
  | indexOutOfRange
deriving DecidableEq

instance {ε α : Type} [DecidableEq ε] [DecidableEq α] :
    DecidableEq (Except ε α) := fun a b =>
  match a, b with
  | Except.ok x, Except.ok y =>
    if h : x = y then Decidable.isTrue (congrArg Except.ok h)
    else Decidable.isFalse (fun hc => h (Except.ok.inj hc))
  | Except.error x, Except.error y =>
    if h : x = y then Decidable.isTrue (congrArg Except.error h)
    else Decidable.isFalse (fun hc => h (Except.error.inj hc))
  | Except.ok _, Except.error _ => Decidable.isFalse (fun hc => Except.noConfusion hc)
  | Except.error _, Except.ok _ => Decidable.isFalse (fun hc => Except.noConfusion hc)

/-- The external capabilities consumed by the service and the component,
abstracted over the type of a decoded page `Page` and of a raster
`Bitmap`.  `none` results model the corresponding exception. -/
structure Env (Page Bitmap : Type) where
  /-- Capability `pdfjsLib.getDocument(...).promise`: decoded page list, `none` on a
  decode failure.  A document is its list of decoded pages. -/
  getDocument : List Nat → Option (List Page)
  /-- availability of `canvas.getContext('2d')` for the canvas created at
  the given (0-based) loop iteration; the code checks it for `null`. -/
  getContext : Nat → Bool
  /-- Capability `page.render(...).promise`: `none` models a render rejection. -/
  render : Page → Option Bitmap
  /-- Capability `canvas.toDataURL('image/jpeg', 0.7)`. -/
  toDataURL : Bitmap → String
  /-- The id source `Math.random().toString(36).substr(2, 9)` for the k-th file loaded
  in a batch. -/
  freshId : Nat → String
  /-- pdf-lib `PDFDocument.load`: `none` on a load failure. -/
  load : List Nat → Option (List Page)
  /-- Capability `mergedPdf.save()`: serialised bytes, `none` models
  `SerializeError`. -/
  save : List Page → Option (List Nat)

/-- The preview loop of `loadPdfAndGetPreviews` (`pdfService.ts`): for
each page, create a canvas, ask for its 2d context, and — only when the
context is non-null — render and push the JPEG data URL.  A page whose
context is unavailable is skipped silently; a render rejection aborts the
whole call. -/
def renderLoop {Page Bitmap : Type} (env : Env Page Bitmap) :
    List Page → Nat → Except PdfError (List String)
  | [], _ => Except.ok []
  | p :: rest, i =>
    if env.getContext i then
      match env.render p with
      | none => Except.error PdfError.renderError
      | some bmp =>
        match renderLoop env rest (i + 1) with
        | Except.error e => Except.error e
        | Except.ok tail => Except.ok (env.toDataURL bmp :: tail)
    else
      renderLoop env rest (i + 1)

/-- Function `loadPdfAndGetPreviews` (`pdfService.ts`): decode the bytes with
pdf.js (a failure is rethrown — `DecodeError`), then render each page in
ascending order, returning `pdf.numPages` together with the collected
previews. -/
def loadPdfAndGetPreviews {Page Bitmap : Type} (env : Env Page Bitmap)
    (file : JSFile) : Except PdfError (Nat × List String) :=
  match env.getDocument file.data with
  | none => Except.error PdfError.decodeError
  | some pages =>
    match renderLoop env pages 0 with
    | Except.error e => Except.error e
    | Except.ok previews => Except.ok (pages.length, previews)

/-- The `previews.forEach` body of `handleFileUpload`: one `PDFPage` per
preview, ids `fileId-index`. -/
def buildPages (fid : String) (fname : String) (previews : List String) :
    List PDFPage :=
  previews.enum.map (fun pr =>
    { id := fid ++ "-" ++ toString pr.1
      sourceFileId := fid
      pageIndex := pr.1
      previewUrl := pr.2
      originalFileName := fname })

/-- The `for (const file of selectedFiles)` loop of `handleFileUpload`:
files whose MIME type is not `application/pdf` are skipped with
`continue`; each remaining file is loaded and, on success, appended to
the accumulated `newFiles`/`newPages`.  `k` counts the files loaded so
far and indexes the fresh-id source.  The first load failure escapes the
loop (the surrounding `try` has no per-file handler). -/
def processFiles {Page Bitmap : Type} (env : Env Page Bitmap) :
    List JSFile → Nat → Except PdfError (List PDFFile × List PDFPage)
  | [], _ => Except.ok ([], [])
  | f :: rest, k =>
    if f.ftype ≠ "application/pdf" then processFiles env rest k
    else
      match loadPdfAndGetPreviews env f with
      | Except.error e => Except.error e
      | Except.ok (pageCount, previews) =>
        match processFiles env rest (k + 1) with
        | Except.error e => Except.error e
        | Except.ok (fs, ps) =>
          Except.ok
            ({ id := env.freshId k, name := f.name, file := f,
               pageCount := pageCount } :: fs,
             buildPages (env.freshId k) f.name previews ++ ps)

/-- Handler `handleFileUpload` (`App` component): run the per-file loop inside a
single `try`; only when every file in the batch succeeded are
`setFiles`/`setAllPages` reached, appending the new entries.  Any
failure lands in the `catch`, which alerts and leaves both state arrays
untouched. -/
def handleFileUpload {Page Bitmap : Type} (env : Env Page Bitmap)
    (state : AppState) (selected : List JSFile) : AppState :=
  match processFiles env selected 0 with
  | Except.error _ => state
  | Except.ok (nf, np) =>
    { files := state.files ++ nf, allPages := state.allPages ++ np }

/-- The `direction` argument of `movePage`. -/
inductive MoveDir where
  | left
  | right
deriving DecidableEq

/-- JavaScript array read `a[p]`: a negative index is a plain property
access (producing `undefined`), and an index beyond the length also
yields `undefined`. -/
def jsRead {α : Type} (l : List (Option α)) (p : Int) : Option α :=
  if p < 0 then none else l.getD p.toNat none

/-- JavaScript array write `a[p] = v`: a negative index is a property
write that leaves the array contents untouched; an index within bounds
overwrites; an index at or past the length extends the array, reading
any intervening holes as `undefined`. -/
def jsWrite {α : Type} (l : List (Option α)) (p : Int) (v : Option α) :
    List (Option α) :=
  if p < 0 then l
  else if p.toNat < l.length then l.set p.toNat v
  else l ++ List.replicate (p.toNat - l.length) none ++ [v]

/-- Handler `movePage` (`App` component): compute the neighbour index, return
unchanged when the *neighbour* is out of bounds, and otherwise perform
the destructuring swap `[a[index], a[target]] = [a[target], a[index]]`
(right-hand side evaluated first, then the two writes in order).  Note
the guard checks only the target index, never `index` itself. -/
def movePage {α : Type} (l : List (Option α)) (index : Int)
    (dir : MoveDir) : List (Option α) :=
  let target : Int := if dir = MoveDir.left then index - 1 else index + 1
  if target < 0 ∨ (l.length : Int) ≤ target then l
  else
    let tv := jsRead l target
    let iv := jsRead l index
    jsWrite (jsWrite l index tv) target iv

/-- Handler `removePage` (`App` component):
`prev.filter((_, i) => i !== index)` — keep every element whose position
differs from `index`. -/
def removePage {β : Type} (l : List β) (index : Int) : List β :=
  (l.enum.filter (fun pr => (pr.1 : Int) ≠ index)).map Prod.snd

/-- The `remove` operation as the specification words it: delete the
entry at `index`, shifting subsequent entries left, failing with
`IndexOutOfRange` if `index ≥ length`.  Stated only for comparison with
the code's `removePage`. -/
def removeSpec {β : Type} (l : List β) (index : Int) :
    Except PdfError (List β) :=
  if (l.length : Int) ≤ index then Except.error PdfError.indexOutOfRange
  else Except.ok (l.take index.toNat ++ l.drop (index.toNat + 1))

/-- The cache key of `mergeAndDownloadPdf`:
`` `${item.sourceFile.name}-${item.sourceFile.size}` ``. -/
def fileKey (f : JSFile) : String := f.name ++ "-" ++ toString f.size

/-- One element of the `pages` argument of `mergeAndDownloadPdf`. -/
structure MergeItem where
  sourceFile : JSFile
  pageIndex : Nat
deriving DecidableEq

/-- Cache-or-load step of the merge loop: look the file's key up in
`sourcePdfCache`; on a miss, decode the bytes with pdf-lib (`none` on
failure) and insert the decoded document under the key. -/
def getOrLoad {Page Bitmap : Type} (env : Env Page Bitmap)
    (cache : List (String × List Page)) (f : JSFile) :
    Option (List Page × List (String × List Page)) :=
  match cache.lookup (fileKey f) with
  | some doc => some (doc, cache)
  | none =>
    match env.load f.data with
    | none => none
    | some doc => some (doc, (fileKey f, doc) :: cache)

/-- The `for (const item of pages)` loop of `mergeAndDownloadPdf`:
resolve the item's source document through the name-size cache, copy the
referenced page (`copyPages` throws on an out-of-range index) and append
it to the output.  Returns the output page list together with the final
cache. -/
def mergeLoop {Page Bitmap : Type} (env : Env Page Bitmap) :
    List MergeItem → List (String × List Page) →
    Except PdfError (List Page × List (String × List Page))
  | [], cache => Except.ok ([], cache)
  | it :: rest, cache =>
    match getOrLoad env cache it.sourceFile with
    | none => Except.error PdfError.decodeError
    | some (doc, cache1) =>
      match doc.get? it.pageIndex with
      | none => Except.error PdfError.copyError
      | some pg =>
        match mergeLoop env rest cache1 with
        | Except.error e => Except.error e
        | Except.ok (tail, cache2) => Except.ok (pg :: tail, cache2)

/-- Function `mergeAndDownloadPdf` (`pdfService.ts`): run the merge loop from an
empty cache, serialise the merged document, and offer the bytes for
download under the chosen file name (appending `.pdf` unless the
lower-cased name already ends in it). -/
def mergeAndDownloadPdf {Page Bitmap : Type} (env : Env Page Bitmap)
    (items : List MergeItem) (fileName : String) :
    Except PdfError (List Page × List Nat × String) :=
  match mergeLoop env items [] with
  | Except.error e => Except.error e
  | Except.ok (pages, _) =>
    match env.save pages with
    | none => Except.error PdfError.serializeError
    | some bytes =>
      Except.ok (pages, bytes,
        if fileName.toLower.endsWith ".pdf" then fileName
        else fileName ++ ".pdf")

/-- The lookup `files.find(f => f.id === page.sourceFileId)`. -/
def findSourceFile (files : List PDFFile) (sid : String) : Option PDFFile :=
  files.find? (fun f => f.id = sid)

/-- The `allPages.map(...)` of `handleDownload`: resolve each page's
source file, throwing `"Source file missing"` at the first page whose
`sourceFileId` has no registered file — the merge is never started in
that case. -/
def mapPagesToProcess (files : List PDFFile) :
    List PDFPage → Except PdfError (List MergeItem)
  | [] => Except.ok []
  | p :: rest =>
    match findSourceFile files p.sourceFileId with
    | none => Except.error PdfError.missingSource
    | some sf =>
      match mapPagesToProcess files rest with
      | Except.error e => Except.error e
      | Except.ok tail =>
        Except.ok ({ sourceFile := sf.file, pageIndex := p.pageIndex } :: tail)

/-- Observable outcome of `handleDownload`: the early return on an empty
page list, the `catch` branch (alert, no download), or a completed
download of the merged pages. -/
inductive DownloadResult (Page : Type) where
  | noop
  | failed (e : PdfError)
  | downloaded (pages : List Page) (bytes : List Nat) (fileName : String)
deriving DecidableEq

/-- Handler `handleDownload` (`App` component): return early when there are no
pages; validate/translate every page reference before merging; any
thrown error (missing source, merge failure, serialisation failure) is
caught and surfaced as a single alert with no download offered. -/
def handleDownload {Page Bitmap : Type} (env : Env Page Bitmap)
    (state : AppState) : DownloadResult Page :=
  if state.allPages.isEmpty then DownloadResult.noop
  else
    match mapPagesToProcess state.files state.allPages with
    | Except.error e => DownloadResult.failed e
    | Except.ok items =>
      match mergeAndDownloadPdf env items "merged_document.pdf" with
      | Except.error e => DownloadResult.failed e
      | Except.ok (pages, bytes, name) =>
        DownloadResult.downloaded pages bytes name

/-! Concrete instances used by the witnesses and counterexamples below.
Pages and bitmaps are both modelled as `Nat`. -/

/-- A small concrete environment: byte streams `[0]`, `[2]`, `[4]`
decode (pdf.js) to one-, two- and one-page documents; `[1]` fails to
decode; page `9` fails to render; pdf-lib decodes `[0]`, `[1]`, `[3]`;
contexts are always available; serialisation is the identity. -/
def env1 : Env Nat Nat where
  getDocument := fun d =>
    match d with
    | [0] => some [5]
    | [2] => some [7, 8]
    | [4] => some [9]
    | _ => none
  getContext := fun _ => true
  render := fun p => if p = 9 then none else some p
  toDataURL := fun b => "u" ++ toString b
  freshId := fun k => "id" ++ toString k
  load := fun d =>
    match d with
    | [0] => some [10]
    | [1] => some [20]
    | [3] => some [30, 40]
    | _ => none
  save := fun pages => some pages

/-- Same as `env1` but every `canvas.getContext('2d')` call returns
null. -/
def env2 : Env Nat Nat := { env1 with getContext := fun _ => false }

/-- A file that loads successfully (one page). -/
def fGood : JSFile := { name := "g", size := 1, ftype := "application/pdf", data := [0] }

/-- A file whose bytes fail to decode. -/
def fBad : JSFile := { name := "b", size := 1, ftype := "application/pdf", data := [1] }

/-- A two-page file. -/
def fTwo : JSFile := { name := "t", size := 1, ftype := "application/pdf", data := [2] }

/-- A file whose single page fails to render. -/
def fRender : JSFile := { name := "r", size := 1, ftype := "application/pdf", data := [4] }

/-- First of two distinct sources sharing name and size. -/
def fMergeA : JSFile := { name := "a", size := 1, ftype := "application/pdf", data := [0] }

/-- Second source with the same `name-size` key as `fMergeA` but
different content. -/
def fMergeB : JSFile := { name := "a", size := 1, ftype := "application/pdf", data := [1] }

/-- A two-page source for the merge reuse scenario. -/
def fMergeC : JSFile := { name := "c", size := 1, ftype := "application/pdf", data := [3] }


/-- A page reference whose `sourceFileId` is registered nowhere. -/
def pOrphan : PDFPage :=
  { id := "x", sourceFileId := "nope", pageIndex := 0, previewUrl := "",
    originalFileName := "" }

/-! ### Helper lemmas -/

theorem getD_lt {β : Type} (l : List β) (n : Nat) (d : β) (h : n < l.length) :
    l.getD n d = l[n] := by
  simp [List.getD_eq_getElem?_getD, List.getElem?_eq_getElem h]

theorem getD_set_self {β : Type} (l : List β) (n : Nat) (v d : β)
    (h : n < l.length) : (l.set n v).getD n d = v := by
  simp [List.getD_eq_getElem?_getD, List.getElem?_set_self h]

theorem getD_set_ne {β : Type} (l : List β) (m n : Nat) (v d : β)
    (hmn : m ≠ n) : (l.set m v).getD n d = l.getD n d := by
  simp [List.getD_eq_getElem?_getD, List.getElem?_set_ne hmn]

theorem set_getD_self {β : Type} (l : List β) (n : Nat) (d : β)
    (h : n < l.length) : l.set n (l.getD n d) = l := by
  induction l generalizing n with
  | nil => simp at h
  | cons a t ih =>
    cases n with
    | zero => simp
    | succ m =>
      simp only [List.getD_cons_succ, List.set_cons_succ]
      rw [ih m (by simpa using h)]

theorem jsRead_nonneg {α : Type} (l : List (Option α)) (p : Int) (h : 0 ≤ p) :
    jsRead l p = l.getD p.toNat none := by
  unfold jsRead
  rw [if_neg (by omega)]

theorem jsWrite_set {α : Type} (l : List (Option α)) (p : Int) (v : Option α)
    (h0 : 0 ≤ p) (h1 : p < (l.length : Int)) :
    jsWrite l p v = l.set p.toNat v := by
  unfold jsWrite
  rw [if_neg (by omega), if_pos (by omega)]

/-- Both writes of `movePage` are in-bounds overwrites when `index`
itself is a valid position, so the destructuring swap is a double
`List.set`. -/
theorem movePage_in_range {α : Type} (l : List (Option α)) (index : Int)
    (dir : MoveDir) (h0 : 0 ≤ index) (h1 : index < (l.length : Int)) :
    movePage l index dir =
      if (if dir = MoveDir.left then index - 1 else index + 1) < 0
          ∨ (l.length : Int) ≤ (if dir = MoveDir.left then index - 1 else index + 1) then l
      else
        (l.set index.toNat
            (l.getD (if dir = MoveDir.left then index - 1 else index + 1).toNat none)).set
          (if dir = MoveDir.left then index - 1 else index + 1).toNat
          (l.getD index.toNat none) := by
  simp only [movePage]
  by_cases hg : (if dir = MoveDir.left then index - 1 else index + 1) < 0
      ∨ (l.length : Int) ≤ (if dir = MoveDir.left then index - 1 else index + 1)
  · rw [if_pos hg, if_pos hg]
  · rw [if_neg hg, if_neg hg]
    push_neg at hg
    rw [jsRead_nonneg l _ hg.1, jsRead_nonneg l index h0,
      jsWrite_set l index _ h0 h1,
      jsWrite_set _ _ _ hg.1 (by rw [List.length_set]; exact hg.2)]

theorem set_set_adjacent_fst {β : Type} (l : List β) (m : Nat) (x y : β)
    (h : m + 1 < l.length) :
    (l.set m x).set (m + 1) y = l.take m ++ x :: y :: l.drop (m + 2) := by
  induction l generalizing m with
  | nil => simp at h
  | cons a t ih =>
    cases m with
    | zero =>
      cases t with
      | nil => simp at h
      | cons b t' => simp
    | succ m' =>
      simp only [List.set_cons_succ, List.take_succ_cons, List.drop_succ_cons,
        List.cons_append]
      rw [ih m' (by simpa using h)]

theorem set_set_adjacent_snd {β : Type} (l : List β) (m : Nat) (x y : β)
    (h : m + 1 < l.length) :
    (l.set (m + 1) y).set m x = l.take m ++ x :: y :: l.drop (m + 2) := by
  rw [List.set_comm y x l (by omega)]
  exact set_set_adjacent_fst l m x y h

theorem take_getD_cons_drop {β : Type} (l : List β) (m : Nat) (d : β)
    (h : m + 1 < l.length) :
    l.take m ++ l.getD m d :: l.getD (m + 1) d :: l.drop (m + 2) = l := by
  rw [getD_lt l m d (by omega), getD_lt l (m + 1) d h,
    ← List.drop_eq_getElem_cons h, ← List.drop_eq_getElem_cons (by omega)]
  exact List.take_append_drop m l

/-- Position-indexed filtering, stated for an arbitrary starting
position: the element at absolute position `index` (when the range
covers it) is the one dropped. -/
theorem enumFrom_filter_ne_map {β : Type} (l : List β) (n : Nat) (index : Int) :
    ((List.enumFrom n l).filter (fun pr => (pr.1 : Int) ≠ index)).map Prod.snd =
      if (n : Int) ≤ index ∧ index < (n : Int) + l.length then
        l.take (index - n).toNat ++ l.drop ((index - n).toNat + 1)
      else l := by
  induction l generalizing n with
  | nil =>
    simp only [List.enumFrom, List.filter_nil, List.map_nil, List.length_nil]
    rw [if_neg (by omega)]
  | cons b t ih =>
    simp only [List.enumFrom, List.filter_cons, List.length_cons]
    by_cases hn : (n : Int) = index
    · rw [if_neg (by simpa using hn), ih (n + 1), if_neg (by push_cast; omega),
        if_pos (by push_cast; omega)]
      have h0 : (index - n).toNat = 0 := by omega
      simp [h0]
    · rw [if_pos (by simpa using hn), List.map_cons, ih (n + 1)]
      by_cases hc : (n : Int) + 1 ≤ index ∧ index < (n : Int) + 1 + t.length
      · rw [if_pos (by push_cast; omega), if_pos (by push_cast; omega)]
        have hk : (index - n).toNat = (index - (n + 1)).toNat + 1 := by omega
        have hk2 : (index - (n + 1)).toNat = (index - n).toNat - 1 := by omega
        rw [hk]
        simp
      · rw [if_neg (by push_cast; omega), if_neg (by push_cast at hc ⊢; omega)]

/-- If some page of the document has an available context but a failing
render, the preview loop cannot complete: it stops at the first such
page with a `RenderError`. -/
theorem renderLoop_error_of_fail {Page Bitmap : Type} (env : Env Page Bitmap) :
    ∀ (pages : List Page) (n : Nat),
      (∃ j : Fin pages.length,
        env.getContext (n + j.1) = true ∧ env.render (pages.get j) = none) →
      renderLoop env pages n = Except.error PdfError.renderError := by
  intro pages
  induction pages with
  | nil => intro n h; exact absurd h (by rintro ⟨j, -⟩; exact j.elim0)
  | cons p rest ih =>
    intro n h
    obtain ⟨j, hctx, hrend⟩ := h
    rcases Fin.eq_zero_or_eq_succ j with hj | ⟨j', hj⟩
    · subst hj
      simp only [Fin.val_zero, Nat.add_zero] at hctx
      simp only [List.get] at hrend
      simp [renderLoop, hctx, hrend]
    · subst hj
      have hrec : renderLoop env rest (n + 1) = Except.error PdfError.renderError := by
        refine ih (n + 1) ⟨j', ?_, ?_⟩
        · simpa [Nat.add_assoc, Nat.add_comm 1 j'.1] using hctx
        · simpa [List.get] using hrend
      by_cases hc : env.getContext n
      · cases hr : env.render p with
        | none => simp [renderLoop, hc, hr]
        | some bmp => simp [renderLoop, hc, hr, hrec]
      · simp [renderLoop, hc, hrec]

/-- A render failure on any page makes the whole per-file load fail with
`RenderError`. -/
theorem loadPdf_renderError {Page Bitmap : Type} (env : Env Page Bitmap)
    (file : JSFile) (pages : List Page) (j : Fin pages.length)
    (hdoc : env.getDocument file.data = some pages)
    (hctx : env.getContext j.1 = true)
    (hrend : env.render (pages.get j) = none) :
    loadPdfAndGetPreviews env file = Except.error PdfError.renderError := by
  have h := renderLoop_error_of_fail env pages 0 ⟨j, by simpa using hctx, hrend⟩
  simp [loadPdfAndGetPreviews, hdoc, h]

/-- A load failure of any pdf-typed file in the batch makes the whole
per-batch loop fail. -/
theorem processFiles_error_of_file {Page Bitmap : Type} (env : Env Page Bitmap) :
    ∀ (selected : List JSFile) (k : Nat) (f : JSFile), f ∈ selected →
      f.ftype = "application/pdf" →
      (∃ e, loadPdfAndGetPreviews env f = Except.error e) →
      ∃ e', processFiles env selected k = Except.error e' := by
  intro selected
  induction selected with
  | nil => intro k f hf; exact absurd hf (List.not_mem_nil f)
  | cons g rest ih =>
    intro k f hf ht hload
    by_cases hg : g.ftype = "application/pdf"
    · cases hl : loadPdfAndGetPreviews env g with
      | error e => exact ⟨e, by simp [processFiles, hg, hl]⟩
      | ok val =>
        have hfr : f ∈ rest := by
          rcases List.mem_cons.mp hf with hfg | hfr
          · obtain ⟨e, he⟩ := hload
            rw [hfg, hl] at he
            exact absurd he (by simp)
          · exact hfr
        obtain ⟨e', he'⟩ := ih (k + 1) f hfr ht hload
        obtain ⟨pc, pv⟩ := val
        exact ⟨e', by simp [processFiles, hg, hl, he']⟩
    · have hfr : f ∈ rest := by
        rcases List.mem_cons.mp hf with hfg | hfr
        · exact absurd (hfg ▸ ht) hg
        · exact hfr
      obtain ⟨e', he'⟩ := ih k f hfr ht hload
      exact ⟨e', by simp [processFiles, hg, he']⟩

/-- The `catch` of `handleFileUpload`: a failed batch leaves the state
untouched. -/
theorem handleFileUpload_of_error {Page Bitmap : Type} (env : Env Page Bitmap)
    (state : AppState) (selected : List JSFile)
    (h : ∃ e, processFiles env selected 0 = Except.error e) :
    handleFileUpload env state selected = state := by
  obtain ⟨e, he⟩ := h
  simp [handleFileUpload, he]

/-- When every canvas context is available, a successful preview loop
produces exactly one preview per page, in page order, each the encoding
of that page's rendered bitmap. -/
theorem renderLoop_ok_forall2 {Page Bitmap : Type} (env : Env Page Bitmap)
    (hctx : ∀ i, env.getContext i = true) :
    ∀ (pages : List Page) (n : Nat) (pv : List String),
      renderLoop env pages n = Except.ok pv →
      List.Forall₂ (fun p s => ∃ b, env.render p = some b ∧ s = env.toDataURL b)
        pages pv := by
  intro pages
  induction pages with
  | nil =>
    intro n pv h
    simp only [renderLoop] at h
    cases h
    exact List.Forall₂.nil
  | cons p rest ih =>
    intro n pv h
    simp only [renderLoop, hctx n, if_true] at h
    cases hr : env.render p with
    | none => rw [hr] at h; cases h
    | some bmp =>
      rw [hr] at h
      cases hrec : renderLoop env rest (n + 1) with
      | error e => rw [hrec] at h; cases h
      | ok tail =>
        rw [hrec] at h
        cases h
        exact List.Forall₂.cons ⟨bmp, hr, rfl⟩ (ih (n + 1) tail hrec)

/-- Every pdf-typed file of a successful batch contributes exactly one
new registry entry, regardless of its bytes. -/
theorem processFiles_count {Page Bitmap : Type} (env : Env Page Bitmap) :
    ∀ (selected : List JSFile) (k : Nat) (nf : List PDFFile) (np : List PDFPage),
      processFiles env selected k = Except.ok (nf, np) →
      nf.length = (selected.filter (fun f => f.ftype == "application/pdf")).length := by
  intro selected
  induction selected with
  | nil =>
    intro k nf np h
    simp only [processFiles] at h
    cases h
    simp
  | cons f rest ih =>
    intro k nf np h
    by_cases hf : f.ftype = "application/pdf"
    · simp only [processFiles, hf, ne_eq, not_true_eq_false, if_false] at h
      cases hl : loadPdfAndGetPreviews env f with
      | error e => rw [hl] at h; cases h
      | ok val =>
        obtain ⟨pc, pv⟩ := val
        rw [hl] at h
        cases hrec : processFiles env rest (k + 1) with
        | error e => rw [hrec] at h; cases h
        | ok pair =>
          obtain ⟨fs, ps⟩ := pair
          rw [hrec] at h
          cases h
          simp only [List.filter_cons, hf, beq_self_eq_true, if_true,
            List.length_cons, List.length_cons]
          rw [ih (k + 1) fs ps hrec]
    · simp only [processFiles, ne_eq, hf, not_false_eq_true, if_true] at h
      rw [List.filter_cons_of_neg (by simpa using hf)]
      exact ih k nf np h

/-- Once the cache holds the (single) source document, the merge loop
copies every remaining referenced page out of the cached document and
never touches the decoder again: the cache is returned unchanged. -/
theorem mergeLoop_all_cached {Page Bitmap : Type} (env : Env Page Bitmap)
    (f : JSFile) (doc : List Page) (d : Page) :
    ∀ (items : List MergeItem) (cache : List (String × List Page)),
      cache.lookup (fileKey f) = some doc →
      (∀ it ∈ items, it.sourceFile = f) →
      (∀ it ∈ items, it.pageIndex < doc.length) →
      mergeLoop env items cache =
        Except.ok (items.map (fun it => doc.getD it.pageIndex d), cache) := by
  intro items
  induction items with
  | nil => intro cache _ _ _; simp [mergeLoop]
  | cons it rest ih =>
    intro cache hcache hf hidx
    have hsf : it.sourceFile = f := hf it (List.mem_cons_self it rest)
    have hlt : it.pageIndex < doc.length := hidx it (List.mem_cons_self it rest)
    have hget : doc.get? it.pageIndex = some (doc.getD it.pageIndex d) := by
      rw [List.get?_eq_getElem?, List.getElem?_eq_getElem hlt, getD_lt doc _ d hlt]
    have hrec := ih cache hcache
      (fun x hx => hf x (List.mem_cons_of_mem it hx))
      (fun x hx => hidx x (List.mem_cons_of_mem it hx))
    simp only [mergeLoop, getOrLoad, hsf, hcache, hget, hrec, List.map_cons]

/-- A `sourceFileId` that resolves to no registered file makes the
page-translation step of `handleDownload` fail with the
`"Source file missing"` error. -/
theorem mapPagesToProcess_error (files : List PDFFile) :
    ∀ (pages : List PDFPage),
      (∃ p ∈ pages, findSourceFile files p.sourceFileId = none) →
      mapPagesToProcess files pages = Except.error PdfError.missingSource := by
  intro pages
  induction pages with
  | nil => rintro ⟨p, hp, -⟩; exact absurd hp (List.not_mem_nil p)
  | cons q rest ih =>
    rintro ⟨p, hp, hmiss⟩
    cases hq : findSourceFile files q.sourceFileId with
    | none => simp [mapPagesToProcess, hq]
    | some sf =>
      have hpr : p ∈ rest := by
        rcases List.mem_cons.mp hp with hpq | hpr
        · rw [hpq, hq] at hmiss; cases hmiss
        · exact hpr
      simp [mapPagesToProcess, hq, ih ⟨p, hpr, hmiss⟩]

/-! ### Claims -/

/-- Claim C1, counterexample.  `fGood` loads successfully on its own
(one registry entry), but in a batch together with the undecodable
`fBad` the whole upload is dropped: `fGood` is *not* processed and
registered, contradicting the claim that a `DecodeError` aborts loading
of the failing file only. -/
theorem upload_batch_one_bad_file_drops_all :
    (handleFileUpload env1 ⟨[], []⟩ [fGood]).files.length = 1 ∧
    (handleFileUpload env1 ⟨[], []⟩ [fGood, fBad]).files.length = 0 ∧
    (handleFileUpload env1 ⟨[], []⟩ [fGood, fBad]).allPages.length = 0 :=
  ⟨rfl, rfl, rfl⟩

/-- Claim C1, amended: a `DecodeError`/`RenderError` while loading any
file of a batch aborts the *entire* batch — the state update is never
reached, so no file of the batch is registered and no pages (from the
failing file or any other) are appended; the failure surfaces as one
alert for the whole batch. -/
theorem handleFileUpload_error_aborts_batch {Page Bitmap : Type}
    (env : Env Page Bitmap) (state : AppState) (selected : List JSFile)
    (e : PdfError) (h : processFiles env selected 0 = Except.error e) :
    handleFileUpload env state selected = state := by
  simp [handleFileUpload, h]

/-- Claim C1, witness: a batch holding only the undecodable `fBad`
leaves the empty state unchanged. -/
theorem handleFileUpload_error_aborts_batch_inst :
    handleFileUpload env1 ⟨[], []⟩ [fBad] = ⟨[], []⟩ :=
  handleFileUpload_error_aborts_batch env1 ⟨[], []⟩ [fBad]
    PdfError.decodeError rfl

/-- Claim C2, counterexample.  Uploading byte-identical content twice
produces two registry entries with distinct fresh ids — the registry
performs no content-fingerprint deduplication at all. -/
theorem upload_same_bytes_twice_two_entries :
    (handleFileUpload env1 ⟨[], []⟩ [fGood, fGood]).files.length = 2 ∧
    (handleFileUpload env1 ⟨[], []⟩ [fGood, fGood]).files.map PDFFile.id
      = ["id0", "id1"] :=
  ⟨rfl, rfl⟩

/-- Claim C2, amended: repeated uploads of the same bytes are *not*
deduplicated.  Every pdf-typed file of a successful batch — byte-identical
or not — is decoded afresh and contributes exactly one new registry
entry under a fresh random id; the only decode caching (keyed by
name+size, not by content) happens inside a single export. -/
theorem upload_no_content_dedup {Page Bitmap : Type} (env : Env Page Bitmap)
    (selected : List JSFile) (nf : List PDFFile) (np : List PDFPage)
    (h : processFiles env selected 0 = Except.ok (nf, np)) :
    nf.length = (selected.filter (fun f => f.ftype == "application/pdf")).length :=
  processFiles_count env selected 0 nf np h

/-- Claim C2, witness: the duplicated upload of `fGood` yields two
entries — one per occurrence. -/
theorem upload_no_content_dedup_inst :
    ∃ nf np, processFiles env1 [fGood, fGood] 0 = Except.ok (nf, np) ∧
      nf.length = ([fGood, fGood].filter
        (fun f => f.ftype == "application/pdf")).length :=
  ⟨_, _, rfl, upload_no_content_dedup env1 [fGood, fGood] _ _ rfl⟩

/-- Claim C3, counterexample.  At `index = 1` on a one-entry list the
specification's `remove` fails with `IndexOutOfRange`, but the code's
`removePage` (a positional filter) silently returns the list
unchanged — no error channel exists. -/
theorem removePage_out_of_range_noop :
    removeSpec [(0 : Nat)] 1 = Except.error PdfError.indexOutOfRange ∧
    removePage [(0 : Nat)] 1 = [0] :=
  ⟨rfl, rfl⟩

/-- Claim C3, amended: for `0 ≤ index < length`, `removePage` deletes
exactly the entry at `index`, shifting later entries left (so the length
drops by one and the relative order of all other entries is preserved);
for any other index — including `index ≥ length`, where the claim
demanded an `IndexOutOfRange` failure — it is a silent no-op. -/
theorem removePage_characterization {β : Type} (l : List β) (index : Int) :
    removePage l index =
      if 0 ≤ index ∧ index < (l.length : Int) then
        l.take index.toNat ++ l.drop (index.toNat + 1)
      else l := by
  rw [removePage, show l.enum = List.enumFrom 0 l from rfl]
  simpa using enumFrom_filter_ne_map l 0 index

/-- The guard branch of `movePage`: an out-of-bounds neighbour makes the
operation a no-op. -/
theorem movePage_noop {α : Type} (l : List (Option α)) (index : Int)
    (dir : MoveDir)
    (h : (if dir = MoveDir.left then index - 1 else index + 1) < 0
      ∨ (l.length : Int) ≤ (if dir = MoveDir.left then index - 1 else index + 1)) :
    movePage l index dir = l := by
  simp only [movePage]
  rw [if_pos h]

/-- Move-left with both positions in range is a double overwrite. -/
theorem movePage_left_swap {α : Type} (l : List (Option α)) (i : Int)
    (h1 : 1 ≤ i) (h2 : i < (l.length : Int)) :
    movePage l i MoveDir.left =
      (l.set i.toNat (l.getD (i - 1).toNat none)).set (i - 1).toNat
        (l.getD i.toNat none) := by
  have h : movePage l i MoveDir.left =
      if i - 1 < 0 ∨ (l.length : Int) ≤ i - 1 then l
      else (l.set i.toNat (l.getD (i - 1).toNat none)).set (i - 1).toNat
        (l.getD i.toNat none) :=
    movePage_in_range l i MoveDir.left (by omega) h2
  rw [if_neg (by omega)] at h
  exact h

/-- Move-right with both positions in range is a double overwrite. -/
theorem movePage_right_swap {α : Type} (l : List (Option α)) (i : Int)
    (h1 : 0 ≤ i) (h2 : i + 1 < (l.length : Int)) :
    movePage l i MoveDir.right =
      (l.set i.toNat (l.getD (i + 1).toNat none)).set (i + 1).toNat
        (l.getD i.toNat none) := by
  have h : movePage l i MoveDir.right =
      if i + 1 < 0 ∨ (l.length : Int) ≤ i + 1 then l
      else (l.set i.toNat (l.getD (i + 1).toNat none)).set (i + 1).toNat
        (l.getD i.toNat none) :=
    movePage_in_range l i MoveDir.right h1 (by omega)
  rw [if_neg (by omega)] at h
  exact h

/-- Claim C9, counterexample.  At `i = 0` on `[some 0]` the first move
is a no-op (`targetIndex = -1` is rejected), but the follow-up
`move(-1, right)` passes the guard (its target `0` is in bounds) and
executes `a[-1] = a[0]; a[0] = a[-1]`, overwriting entry `0` with
`undefined`: the original sequence `[some 0]` is not restored. -/
theorem movePage_left_right_zero_not_inverse :
    movePage (movePage [some (0 : Nat)] 0 MoveDir.left) (0 - 1) MoveDir.right
      = [none] :=
  rfl

/-- Claim C9, amended: for every `i` with `1 ≤ i < length` — exactly the
indexes at which `move(i, left)` performs a real swap — the pair
`move(i, left)` then `move(i-1, right)` restores the original sequence.
At the boundary values `i = 0` and `i = length` the pair instead
corrupts the array through out-of-range JavaScript index accesses. -/
theorem movePage_left_then_right_restores {α : Type} (l : List (Option α))
    (i : Int) (h1 : 1 ≤ i) (h2 : i < (l.length : Int)) :
    movePage (movePage l i MoveDir.left) (i - 1) MoveDir.right = l := by
  have hlen : i.toNat < l.length := by omega
  have hm1 : (i - 1).toNat + 1 = i.toNat := by omega
  set m : Nat := (i - 1).toNat with hm
  have hmlt : m + 1 < l.length + 1 := by omega
  have hml := movePage_left_swap l i h1 h2
  rw [← hm, ← hm1] at hml
  set a : Option α := l.getD m none with ha
  set b : Option α := l.getD (m + 1) none with hb
  set L1 : List (Option α) := (l.set (m + 1) a).set m b with hL1
  rw [hml, show movePage ((l.set (m+1) a).set m b) (i - 1) MoveDir.right
      = movePage L1 (i - 1) MoveDir.right from rfl]
  have hL1len : L1.length = l.length := by
    rw [hL1, List.length_set, List.length_set]
  have hmr := movePage_right_swap L1 (i - 1) (by omega)
    (by rw [hL1len]; omega)
  rw [hmr, show (i - 1 + 1 : Int) = i from by omega, ← hm, ← hm1]
  have hga : L1.getD (m + 1) none = a := by
    rw [hL1, getD_set_ne _ m (m + 1) b none (by omega),
      getD_set_self _ (m + 1) a none (by omega)]
  have hgb : L1.getD m none = b := by
    rw [hL1, getD_set_self _ m b none (by rw [List.length_set]; omega)]
  rw [hga, hgb, hL1, List.set_set,
    List.set_comm a a l (by omega : m + 1 ≠ m), List.set_set,
    ha, hb, set_getD_self l m none (by omega),
    set_getD_self l (m + 1) none (by omega)]

/-- Claim C9, witness: on `[some 0, some 1]` at `i = 1` the move-left /
move-right pair restores the original list. -/
theorem movePage_left_then_right_restores_inst :
    movePage (movePage [some (0 : Nat), some 1] 1 MoveDir.left) (1 - 1)
      MoveDir.right = [some 0, some 1] :=
  movePage_left_then_right_restores [some (0 : Nat), some 1] 1
    (by decide) (by decide)

/-- Claim C8, counterexample.  `movePage [some 0] 1 left` has its
neighbour `0` in bounds, so the claim demands a swap of the entry at
index `1` with its neighbour — but there is no entry at index `1`, and
the JavaScript destructuring executes `a[1] = a[0]; a[0] = a[1]`
(right-hand side pre-evaluated), *appending* the old entry and leaving
an `undefined` hole: the result has length 2, so it is neither a swap
nor the claimed no-op. -/
theorem movePage_index_eq_length_grows_array :
    movePage [some (0 : Nat)] 1 MoveDir.left = [none, some 0] ∧
    (movePage [some (0 : Nat)] 1 MoveDir.left).length = 2 :=
  ⟨rfl, rfl⟩

/-- Claim C8, amended: for every *valid* position `0 ≤ index < length`,
`movePage` behaves exactly as claimed — a no-op (and no error) when the
neighbour index is out of bounds, and otherwise the swap of the entries
at `index` and at the neighbour position.  For `index` outside the valid
range with an in-bounds neighbour (only `index = length` with
direction left, or `index = -1` with direction right are reachable past
the guard) the unguarded JavaScript writes corrupt the array instead. -/
theorem movePage_swap_or_noop {α : Type} (l : List (Option α))
    (index : Int) (dir : MoveDir) (h0 : 0 ≤ index)
    (h1 : index < (l.length : Int)) :
    movePage l index dir =
      if (if dir = MoveDir.left then index - 1 else index + 1) < 0
          ∨ (l.length : Int) ≤ (if dir = MoveDir.left then index - 1 else index + 1) then l
      else
        (l.set index.toNat
            (l.getD (if dir = MoveDir.left then index - 1 else index + 1).toNat none)).set
          (if dir = MoveDir.left then index - 1 else index + 1).toNat
          (l.getD index.toNat none) :=
  movePage_in_range l index dir h0 h1

/-- Claim C8, witness: moving index `0` right in a two-entry list swaps
the two entries. -/
theorem movePage_swap_or_noop_inst :
    movePage [some (0 : Nat), some 1] 0 MoveDir.right = [some 1, some 0] := by
  have h := movePage_swap_or_noop [some (0 : Nat), some 1] 0 MoveDir.right
    (by decide) (by decide)
  rw [h]
  decide

/-- Claim C10, counterexample.  `movePage [some 0, some 1] (-1) right`
passes the guard (target `0` is in bounds); the write `a[-1] = a[0]` is
an invisible property write and `a[0] = a[-1]` stores `undefined`, so
the result keeps its length but loses the entry `some 0`: the entries
are not preserved as a multiset. -/
theorem movePage_neg_index_corrupts_entry :
    movePage [some (0 : Nat), some 1] (-1) MoveDir.right = [none, some 1] :=
  rfl

/-- Claim C10, amended: for every *valid* position `0 ≤ index < length`
(every position the UI can produce), `movePage` preserves the entries as
a multiset: the result is either the input unchanged (out-of-bounds
neighbour) or the input with one pair of adjacent entries transposed.
For `index = length` (left) or `index = -1` (right) the unguarded
JavaScript writes instead grow the array or overwrite an entry with
`undefined`. -/
theorem movePage_in_range_perm {α : Type} (l : List (Option α))
    (index : Int) (dir : MoveDir) (h0 : 0 ≤ index)
    (h1 : index < (l.length : Int)) :
    (movePage l index dir).Perm l ∧
      (movePage l index dir = l ∨ ∃ m : Nat, m + 1 < l.length ∧
        movePage l index dir =
          l.take m ++ l.getD (m + 1) none :: l.getD m none :: l.drop (m + 2)) := by
  cases dir with
  | left =>
    by_cases hg : index - 1 < 0 ∨ (l.length : Int) ≤ index - 1
    · have hnoop : movePage l index MoveDir.left = l :=
        movePage_noop l index MoveDir.left hg
      rw [hnoop]
      exact ⟨List.Perm.refl l, Or.inl rfl⟩
    · push_neg at hg
      have hswap := movePage_left_swap l index (by omega) h1
      set m : Nat := (index - 1).toNat with hm
      have hit : index.toNat = m + 1 := by omega
      have hmlt : m + 1 < l.length := by omega
      rw [hit] at hswap
      rw [set_set_adjacent_snd l m (l.getD (m + 1) none) (l.getD m none) hmlt]
        at hswap
      refine ⟨?_, Or.inr ⟨m, hmlt, hswap⟩⟩
      rw [hswap]
      have hperm :
          (l.take m ++ l.getD (m + 1) none :: l.getD m none :: l.drop (m + 2)).Perm
            (l.take m ++ l.getD m none :: l.getD (m + 1) none :: l.drop (m + 2)) :=
        List.Perm.append_left _ (List.Perm.swap _ _ _)
      rw [take_getD_cons_drop l m none hmlt] at hperm
      exact hperm
  | right =>
    by_cases hg : index + 1 < 0 ∨ (l.length : Int) ≤ index + 1
    · have hnoop : movePage l index MoveDir.right = l :=
        movePage_noop l index MoveDir.right hg
      rw [hnoop]
      exact ⟨List.Perm.refl l, Or.inl rfl⟩
    · push_neg at hg
      have hswap := movePage_right_swap l index h0 (by omega)
      set m : Nat := index.toNat with hm
      have hit : (index + 1).toNat = m + 1 := by omega
      have hmlt : m + 1 < l.length := by omega
      rw [hit] at hswap
      rw [set_set_adjacent_fst l m (l.getD (m + 1) none) (l.getD m none) hmlt]
        at hswap
      refine ⟨?_, Or.inr ⟨m, hmlt, hswap⟩⟩
      rw [hswap]
      have hperm :
          (l.take m ++ l.getD (m + 1) none :: l.getD m none :: l.drop (m + 2)).Perm
            (l.take m ++ l.getD m none :: l.getD (m + 1) none :: l.drop (m + 2)) :=
        List.Perm.append_left _ (List.Perm.swap _ _ _)
      rw [take_getD_cons_drop l m none hmlt] at hperm
      exact hperm

/-- Claim C10, witness: moving index `1` left in a three-entry list is
an adjacent transposition, hence a permutation. -/
theorem movePage_in_range_perm_inst :
    (movePage [some (0 : Nat), some 1, some 2] 1 MoveDir.left).Perm
        [some 0, some 1, some 2] ∧
      (movePage [some (0 : Nat), some 1, some 2] 1 MoveDir.left
          = [some 0, some 1, some 2] ∨
        ∃ m : Nat, m + 1 < ([some (0 : Nat), some 1, some 2]).length ∧
          movePage [some (0 : Nat), some 1, some 2] 1 MoveDir.left =
            ([some (0 : Nat), some 1, some 2]).take m ++
              ([some (0 : Nat), some 1, some 2]).getD (m + 1) none ::
              ([some (0 : Nat), some 1, some 2]).getD m none ::
              ([some (0 : Nat), some 1, some 2]).drop (m + 2)) :=
  movePage_in_range_perm [some (0 : Nat), some 1, some 2] 1 MoveDir.left
    (by decide) (by decide)

/-- Claim C4, counterexample.  With the canvas 2d context unavailable,
the per-page `if (context)` guard silently skips the page instead of
failing: the call succeeds with `pageCount = 1` but zero previews, so
the returned page count does not equal the number of previews. -/
theorem loadPdf_null_context_skips_page :
    loadPdfAndGetPreviews env2 fGood = Except.ok (1, []) ∧
      ([] : List String).length ≠ 1 :=
  ⟨rfl, by decide⟩

/-- Claim C4, amended: *provided the canvas 2d context is available at
every page*, a successful `loadPdfAndGetPreviews` returns exactly one
preview per page, in ascending page order (`Forall₂` pairs the decoded
pages, in order, with the previews), and the returned `pageCount`
equals the number of previews.  A page whose context is unavailable is
skipped silently, leaving fewer previews than `pageCount`. -/
theorem loadPdf_previews_one_per_page {Page Bitmap : Type}
    (env : Env Page Bitmap) (file : JSFile) (n : Nat) (previews : List String)
    (hok : loadPdfAndGetPreviews env file = Except.ok (n, previews))
    (hctx : ∀ i, env.getContext i = true) :
    previews.length = n ∧
      ∃ pages, env.getDocument file.data = some pages ∧ n = pages.length ∧
        List.Forall₂
          (fun p s => ∃ b, env.render p = some b ∧ s = env.toDataURL b)
          pages previews := by
  cases hdoc : env.getDocument file.data with
  | none =>
    simp only [loadPdfAndGetPreviews, hdoc] at hok
    cases hok
  | some pages =>
    cases hrl : renderLoop env pages 0 with
    | error e =>
      simp only [loadPdfAndGetPreviews, hdoc, hrl] at hok
      cases hok
    | ok pv =>
      simp only [loadPdfAndGetPreviews, hdoc, hrl, Except.ok.injEq,
        Prod.mk.injEq] at hok
      obtain ⟨hn, hpv⟩ := hok
      have hf2 := renderLoop_ok_forall2 env hctx pages 0 pv hrl
      rw [← hn, ← hpv]
      exact ⟨(List.Forall₂.length_eq hf2).symm, pages, rfl, rfl, hf2⟩

/-- Claim C4, witness: the two-page document of `fTwo` yields exactly
two previews, in page order. -/
theorem loadPdf_previews_one_per_page_inst :
    (["u7", "u8"] : List String).length = 2 ∧
      ∃ pages, env1.getDocument fTwo.data = some pages ∧ 2 = pages.length ∧
        List.Forall₂
          (fun p s => ∃ b, env1.render p = some b ∧ s = env1.toDataURL b)
          pages ["u7", "u8"] :=
  loadPdf_previews_one_per_page env1 fTwo 2 ["u7", "u8"] rfl (fun _ => rfl)

/-- Claim C5, counterexample.  `fMergeA` and `fMergeB` are *distinct*
source documents (different bytes: pdf-lib decodes them to `[10]` and
`[20]`) that share the cache key `"a-1"` (same name, same size).  The
merge loop decodes only the first: the compiled output is `[10, 10]`
and the final cache holds a single entry, so `fMergeB` is never
decoded/attached and its page content `20` never appears — the cache is
keyed by name+size, not by the source's identity. -/
theorem merge_cache_collision_name_size :
    fMergeA ≠ fMergeB ∧ env1.load fMergeB.data = some [20] ∧
      mergeLoop env1 [⟨fMergeA, 0⟩, ⟨fMergeB, 0⟩] [] =
        Except.ok ([10, 10], [("a-1", [10])]) :=
  ⟨by decide, rfl, rfl⟩

/-- Claim C5, amended: the merge compiler caches decoded source
documents by the `name-size` key (not by `sourceId`).  For a `PageSet`
whose entries all reference one source document, that document is
decoded and attached exactly once — the final cache holds the single
entry — and every entry copies its referenced page out of that one
decode, so two references to the same `(sourceId, pageIndex)` put that
page's content into the output twice.  Distinct sources that happen to
share name and size, however, collide on the key and the later one is
never decoded. -/
theorem mergeLoop_single_source_decoded_once {Page Bitmap : Type}
    (env : Env Page Bitmap) (f : JSFile) (doc : List Page) (d : Page)
    (items : List MergeItem)
    (hload : env.load f.data = some doc)
    (hf : ∀ it ∈ items, it.sourceFile = f)
    (hidx : ∀ it ∈ items, it.pageIndex < doc.length)
    (hne : items ≠ []) :
    mergeLoop env items [] =
      Except.ok (items.map (fun it => doc.getD it.pageIndex d),
        [(fileKey f, doc)]) := by
  cases items with
  | nil => exact absurd rfl hne
  | cons it rest =>
    have hsf : it.sourceFile = f := hf it (List.mem_cons_self it rest)
    have hlt : it.pageIndex < doc.length :=
      hidx it (List.mem_cons_self it rest)
    have hget : doc.get? it.pageIndex = some (doc.getD it.pageIndex d) := by
      rw [List.get?_eq_getElem?, List.getElem?_eq_getElem hlt,
        getD_lt doc _ d hlt]
    have hgol : getOrLoad env [] it.sourceFile =
        some (doc, [(fileKey f, doc)]) := by
      rw [hsf]
      simp only [getOrLoad, List.lookup, hload]
    have hrec := mergeLoop_all_cached env f doc d rest [(fileKey f, doc)]
      (by simp [List.lookup])
      (fun x hx => hf x (List.mem_cons_of_mem it hx))
      (fun x hx => hidx x (List.mem_cons_of_mem it hx))
    simp only [mergeLoop, hgol, hget, hrec, List.map_cons]

/-- Claim C5, witness: three references into the single two-page source
`fMergeC` — the pair `(fMergeC, 0)` appearing twice — compile to the
output `[30, 40, 30]` (page `0`'s content appears twice) with the
source decoded once (one cache entry). -/
theorem mergeLoop_single_source_decoded_once_inst :
    mergeLoop env1 [⟨fMergeC, 0⟩, ⟨fMergeC, 1⟩, ⟨fMergeC, 0⟩] [] =
      Except.ok ([30, 40, 30], [("c-1", [30, 40])]) := by
  have h := mergeLoop_single_source_decoded_once env1 fMergeC [30, 40] 0
    [⟨fMergeC, 0⟩, ⟨fMergeC, 1⟩, ⟨fMergeC, 0⟩] rfl (by decide) (by decide)
    (by decide)
  exact h

/-- Claim C6 (confirmed): if any page of a file has an available canvas
context but a failing render, the whole load of that file fails with
`RenderError`; since the failure escapes the upload loop's single
`try`, the state update is never reached and no pages of that document
(indeed, none at all) are added to the registry or the page list — the
per-file load is all-or-nothing. -/
theorem render_failure_aborts_file_all_or_nothing {Page Bitmap : Type}
    (env : Env Page Bitmap) (state : AppState) (selected : List JSFile)
    (f : JSFile) (pages : List Page) (j : Fin pages.length)
    (hf : f ∈ selected) (ht : f.ftype = "application/pdf")
    (hdoc : env.getDocument f.data = some pages)
    (hctx : env.getContext j.1 = true)
    (hrend : env.render (pages.get j) = none) :
    loadPdfAndGetPreviews env f = Except.error PdfError.renderError ∧
      handleFileUpload env state selected = state := by
  have hload := loadPdf_renderError env f pages j hdoc hctx hrend
  refine ⟨hload, handleFileUpload_of_error env state selected ?_⟩
  exact processFiles_error_of_file env selected 0 f hf ht ⟨_, hload⟩

/-- Claim C6, witness: `fRender`, whose single page fails to render,
makes the load fail with `RenderError` and leaves the state untouched. -/
theorem render_failure_aborts_file_all_or_nothing_inst :
    loadPdfAndGetPreviews env1 fRender = Except.error PdfError.renderError ∧
      handleFileUpload env1 ⟨[], []⟩ [fRender] = ⟨[], []⟩ :=
  render_failure_aborts_file_all_or_nothing env1 ⟨[], []⟩ [fRender] fRender
    [9] ⟨0, by decide⟩ (by decide) rfl rfl rfl rfl

/-- Claim C7 (confirmed): `handleDownload` first translates every page
reference through the registry (`allPages.map`, which throws
`"Source file missing"` — `MissingSource` — at any unresolved
`sourceFileId`); the throw happens before `mergeAndDownloadPdf` is
invoked, so the whole export is aborted in the `catch` with no merge
output produced and no download offered. -/
theorem handleDownload_missing_source_aborts {Page Bitmap : Type}
    (env : Env Page Bitmap) (state : AppState) (p : PDFPage)
    (hp : p ∈ state.allPages)
    (hmiss : findSourceFile state.files p.sourceFileId = none) :
    handleDownload env state
      = (DownloadResult.failed PdfError.missingSource : DownloadResult Page) := by
  have hne : state.allPages.isEmpty = false := by
    cases hall : state.allPages with
    | nil => rw [hall] at hp; exact absurd hp (List.not_mem_nil p)
    | cons a t => simp [List.isEmpty]
  have hmap := mapPagesToProcess_error state.files state.allPages ⟨p, hp, hmiss⟩
  simp [handleDownload, hne, hmap]

/-- Claim C7, witness: a state with one page whose source id `"nope"`
is registered nowhere fails the export with `MissingSource`. -/
theorem handleDownload_missing_source_aborts_inst :
    handleDownload env1 ⟨[], [pOrphan]⟩
      = DownloadResult.failed PdfError.missingSource :=
  handleDownload_missing_source_aborts env1 ⟨[], [pOrphan]⟩ pOrphan
    (by decide) rfl
